import Mathlib

/-!
Verification of the factor-evaluation core of the MFE5210-Asg repository
(files backtest.py and alpha_factors.py).

Modelling conventions for the shallow embedding:
* A pandas DataFrame of per-date, per-instrument values is a `Panel`:
  an ordered list of date labels, a column count, and a total lookup
  function returning `none` for missing (NaN) entries.  All panels of the
  repository share one instrument axis, so columns are identified by
  position `0 .. n-1`.
* Float arithmetic is modelled as exact rational arithmetic (ℚ); NaN is
  `none`.  Quantile edges, means and variances are therefore exact.
* A value of the form `c / sqrt d` (Sharpe ratio, Spearman correlation)
  is represented exactly by the pair `RootQuot.mk c d`, since the
  denominator is an irrational square root of a rational; `none`
  represents NaN.
* Python exceptions are modelled with `Except String`.
-/

/-- A date-indexed, instrument-columned numeric table (a pandas DataFrame).
`val t i = none` models a missing (NaN) entry; `val` is also `none` for
labels `t` outside `dates` and columns `i ≥ n`. -/
structure Panel where
  dates : List ℤ
  n : ℕ
  val : ℤ → ℕ → Option ℚ

/-- The cross-section of a panel at date `t` (a DataFrame row), as a list of
optional values indexed by instrument position. -/
def Panel.row (P : Panel) (t : ℤ) : List (Option ℚ) :=
  (List.range P.n).map (fun i => P.val t i)

/-- A date-indexed series with possibly missing values (a pandas Series).
As for `Panel`, `val` returns `none` off the index. -/
structure SeriesO (α : Type) where
  dates : List ℤ
  val : ℤ → Option α

/-- Exact representation of the real number `num / Real.sqrt radicand`.
Used for values the source computes with a square root (standard
deviations inside Sharpe ratios and correlations); all other arithmetic
in the source stays rational. -/
structure RootQuot where
  num : ℚ
  radicand : ℚ
deriving DecidableEq

/-! ### Cross-sectional bucketer

Source: backtest.py lines 61-88 (inside calculate_factor_returns).
For each date the row is ranked with rank(method='first') and cut with
pd.qcut(ranks, q, labels, duplicates='drop'); a date whose row has fewer
than `quantiles` distinct non-missing values is skipped (printed
diagnostic, row left all-NaN).  rank(method='first') sorts the
non-missing entries by value with ties broken by column position, so the
ranks are the distinct integers 1..m.  On the ranks 1..m (m ≥ 2) the
quantile edges 1 + (m-1)*i/q computed by qcut are strictly increasing,
so duplicates='drop' drops nothing, and the bucket of rank r is the
least b ≥ 1 with (r-1)*q ≤ (m-1)*b (right-closed bins, lowest bin
closed).  Bucket label `Q{b}` is modelled as the number `b`. -/

/-- Positions of the non-missing entries of a row. -/
def validPos (row : List (Option ℚ)) : List ℕ :=
  (List.range row.length).filter (fun i => (row.getD i none).isSome)

/-- The numeric value at a position of a row (junk 0 at missing entries;
only used for positions in `validPos`). -/
def rowVal (row : List (Option ℚ)) (i : ℕ) : ℚ :=
  (row.getD i none).getD 0

/-- Ranking key order of rank(method='first'): sort by value, ties broken
by column position. -/
def keyLe (row : List (Option ℚ)) (i j : ℕ) : Prop :=
  rowVal row i < rowVal row j ∨ (rowVal row i = rowVal row j ∧ i ≤ j)

instance (row : List (Option ℚ)) : DecidableRel (keyLe row) := fun i j => by
  unfold keyLe
  infer_instance

instance (row : List (Option ℚ)) : IsTotal ℕ (keyLe row) := by
  constructor
  intro i j
  unfold keyLe
  rcases lt_trichotomy (rowVal row i) (rowVal row j) with h | h | h
  · exact Or.inl (Or.inl h)
  · rcases Nat.le_total i j with hij | hij
    · exact Or.inl (Or.inr ⟨h, hij⟩)
    · exact Or.inr (Or.inr ⟨h.symm, hij⟩)
  · exact Or.inr (Or.inl h)

instance (row : List (Option ℚ)) : IsTrans ℕ (keyLe row) := by
  constructor
  intro a b c hab hbc
  unfold keyLe at *
  rcases hab with h1 | ⟨h1, h1n⟩
  · rcases hbc with h2 | ⟨h2, _⟩
    · exact Or.inl (h1.trans h2)
    · exact Or.inl (h2 ▸ h1)
  · rcases hbc with h2 | ⟨h2, h2n⟩
    · exact Or.inl (h1 ▸ h2)
    · exact Or.inr ⟨h1.trans h2, h1n.trans h2n⟩

/-- The non-missing positions of a row sorted by rank(method='first')
order: position at sorted index p has rank p+1. -/
def sortedPos (row : List (Option ℚ)) : List ℕ :=
  List.insertionSort (keyLe row) (validPos row)

/-- Number of non-missing entries of the row. -/
def numValid (row : List (Option ℚ)) : ℕ :=
  (validPos row).length

/-- Number of distinct non-missing values of the row
(row.dropna().unique() in the source). -/
def distinctCount (row : List (Option ℚ)) : ℕ :=
  (row.filterMap id).dedup.length

/-- Bucket of rank `r` among ranks 1..m cut into `k` quantile bins:
the least b ≥ 1 with (r-1)*k ≤ (m-1)*b, computed as a rounded-up
division.  Matches pd.qcut on the distinct ranks produced by
rank(method='first') under exact edge arithmetic. -/
def qb (k m r : ℕ) : ℕ :=
  if m ≤ 1 then 1 else max 1 (((r - 1) * k + (m - 2)) / (m - 1))

/-- Bucket assignment of one date row (one iteration of the loop at
backtest.py lines 67-88): all-none when the date is skipped for having
fewer than `k` distinct values, otherwise each non-missing position gets
the qcut bucket of its rank and missing positions stay none. -/
def bucketRow (k : ℕ) (row : List (Option ℚ)) : List (Option ℕ) :=
  if distinctCount row < k then List.replicate row.length none
  else (List.range row.length).map (fun i =>
    if i ∈ sortedPos row then
      some (qb k (numValid row) ((sortedPos row).indexOf i + 1))
    else none)

/-- The rank of position i under rank(method='first'): one plus its index
in the sorted position list.  bucketRow assigns qb of this rank. -/
def rankFirst (row : List (Option ℚ)) (i : ℕ) : ℕ :=
  (sortedPos row).indexOf i + 1

/-- Dates of a factor panel skipped by the bucketer, each printed as a
diagnostic message by the source (backtest.py line 87). -/
def skippedDates (k : ℕ) (factor : Panel) : List ℤ :=
  factor.dates.filter (fun t => decide (distinctCount (factor.row t) < k))

/-- Number of instruments assigned bucket `b` on a row. -/
def bucketSize (k : ℕ) (row : List (Option ℚ)) (b : ℕ) : ℕ :=
  ((Finset.range row.length).filter
    (fun i => (bucketRow k row).getD i none = some b)).card

/-! ### Return aggregator and long-short composer

Source: backtest.py lines 90-118. -/

/-- Mean of the present values of a list, `none` if all are missing
(pandas mean(axis=1) with skipna). -/
def meanOpt (l : List (Option ℚ)) : Option ℚ :=
  let xs := l.filterMap id
  if xs.isEmpty then none else some (xs.sum / (xs.length : ℚ))

/-- One row of `self.returns * mask` (backtest.py line 94): a missing
return stays missing (NaN times anything is NaN); a present return is
kept where the mask is True and becomes 0 where it is False.  The mask
`factor_quantiles == q` is False at missing bucket entries. -/
def maskedRow (q : ℕ) (brow : List (Option ℕ)) (rrow : List (Option ℚ)) :
    List (Option ℚ) :=
  List.zipWith (fun b r => Option.map (fun x => if b = some q then x else 0) r)
    brow rrow

/-- The DataFrame returned by calculate_factor_returns: one column per
bucket label and the union of the factor and return date indices
(pandas arithmetic aligns indices, filling NaN on rows present in only
one operand). -/
structure GroupedReturns where
  labels : List ℕ
  dates : List ℤ
  val : ℕ → ℤ → Option ℚ

/-- Union of two date indices (order irrelevant for the claims). -/
def mergeDates (a b : List ℤ) : List ℤ :=
  a ++ b.filter (fun t => !a.contains t)

/-- Embedding of AlphaBacktest.calculate_factor_returns
(backtest.py lines 44-96) applied to the panel of the named factor.
The group dictionary is built for every label Q1..Qk; the value of
column q at date t is the skipna row mean of `returns * mask`, which is
`none` exactly on dates missing from either index or whose return row is
all-missing. -/
def calculate_factor_returns (k : ℕ) (factor returns : Panel) :
    GroupedReturns where
  labels := List.range' 1 k
  dates := mergeDates factor.dates returns.dates
  val := fun q t =>
    if t ∈ factor.dates ∧ t ∈ returns.dates then
      meanOpt (maskedRow q (bucketRow k (factor.row t)) (returns.row t))
    else none

/-- Embedding of AlphaBacktest.calculate_long_short_returns
(backtest.py lines 98-118): if both extreme labels are among the group
columns, the series Qk - Q1 (missing where either operand is missing);
otherwise the fallback all-missing series over the return index. -/
def calculate_long_short_returns (k : ℕ) (factor returns : Panel) :
    SeriesO ℚ :=
  let g := calculate_factor_returns k factor returns
  if k ∈ g.labels ∧ 1 ∈ g.labels then
    { dates := g.dates
      val := fun t => (g.val k t).bind (fun a => (g.val 1 t).map (fun b => a - b)) }
  else
    { dates := returns.dates, val := fun _ => none }

/-! ### Rank-correlation evaluator

Source: backtest.py lines 120-146.  Series.corr(method='spearman')
computes the Pearson correlation of the average ranks of the two lists
and is NaN when either rank list has zero variance (which covers every
list of fewer than two points). -/

/-- Average rank (1-based) of the value `v` within the list `xs`: tied
values share the mean of their ordinal ranks. -/
def avgRank (xs : List ℚ) (v : ℚ) : ℚ :=
  (((xs.filter (fun y => y < v)).length : ℚ) +
    ((xs.filter (fun y => y ≤ v)).length : ℚ) + 1) / 2

/-- Average ranks of a list of values. -/
def avgRanks (xs : List ℚ) : List ℚ :=
  xs.map (avgRank xs)

/-- Mean of a list of rationals (0 on the empty list). -/
def meanQ (xs : List ℚ) : ℚ :=
  xs.sum / (xs.length : ℚ)

/-- Centered dot product Σ (xᵢ - mean x)(yᵢ - mean y); `centDot xs xs` is
the unnormalised variance.  The 1/(n-1) normalisations of covariance and
variance cancel in a correlation, so they are omitted. -/
def centDot (xs ys : List ℚ) : ℚ :=
  (List.zipWith (fun a b => (a - meanQ xs) * (b - meanQ ys)) xs ys).sum

/-- Spearman correlation of a list of pairs: Pearson correlation of the
average ranks, `cov / sqrt (vx * vy)` represented as a `RootQuot`;
`none` (NaN) when either rank list has zero variance, in particular for
fewer than two pairs. -/
def spearman (pairs : List (ℚ × ℚ)) : Option RootQuot :=
  let rx := avgRanks (pairs.map Prod.fst)
  let ry := avgRanks (pairs.map Prod.snd)
  if centDot rx rx = 0 ∨ centDot ry ry = 0 then none
  else some ⟨centDot rx ry, centDot rx rx * centDot ry ry⟩

/-- The pairs of factor value and forward return over the instruments
where both are present (the boolean mask `valid` at backtest.py line
142), in instrument order. -/
def validPairs (frow rrow : List (Option ℚ)) : List (ℚ × ℚ) :=
  (List.zipWith (fun a b => a.bind (fun x => b.map (fun y => (x, y)))) frow rrow).filterMap id

/-- Embedding of AlphaBacktest.calculate_factor_ic (backtest.py lines
120-146): a series over the factor index; a date gets a value only when
it is also in the return index and at least one valid pair exists
(`valid.sum() > 0`), in which case the value is the Spearman correlation
of the valid pairs (itself NaN when degenerate). -/
def calculate_factor_ic (factor returns : Panel) : SeriesO RootQuot where
  dates := factor.dates
  val := fun t =>
    if t ∈ factor.dates ∧ t ∈ returns.dates then
      if 0 < (validPairs (factor.row t) (returns.row t)).length then
        spearman (validPairs (factor.row t) (returns.row t))
      else none
    else none

/-! ### Performance summarizer

Source: backtest.py lines 148-161. -/

/-- Sample variance with ddof = 1 (pandas default), unnormalised mean
removed; only used on lists of length ≥ 2. -/
def sampleVar (xs : List ℚ) : ℚ :=
  (xs.map (fun x => (x - meanQ xs) ^ 2)).sum / ((xs.length : ℚ) - 1)

/-- Embedding of AlphaBacktest.calculate_sharpe_ratio (backtest.py lines
148-161) on the list of values of a series.  pandas mean/std skip NaN;
with fewer than two present values std is NaN, NaN != 0 is true in
Python, and the division then yields NaN (`none`).  Otherwise the zero-std
guard returns exactly 0 (represented ⟨0, 1⟩), and the generic branch
returns mean*A / (std*sqrt A) = (mean*A) / sqrt (var*A), represented
⟨mean*A, var*A⟩. -/
def calculate_sharpe_ratio (r : List (Option ℚ)) (A : ℚ) : Option RootQuot :=
  let xs := r.filterMap id
  if xs.length < 2 then none
  else if sampleVar xs = 0 then some ⟨0, 1⟩
  else some ⟨meanQ xs * A, sampleVar xs * A⟩

/-- The values of a series listed along its date index (used when a
series is reduced by mean/std as in calculate_sharpe_ratio). -/
def seriesVals (s : SeriesO ℚ) : List (Option ℚ) :=
  s.dates.map s.val

/-! ### Factor formulas and the data pipeline

Sources: alpha_factors.py and backtest.py lines 15-42.  pct_change,
shift and rolling act positionally on the date index; they are modelled
without the legacy pad fill of pct_change, whose effect none of the
claims depends on.  The constant 1e-8 is modelled by the exact rational
1/10^8. -/

/-- Position of a date label in a panel's index. -/
def posOf (P : Panel) (t : ℤ) : Option ℕ :=
  if t ∈ P.dates then some (P.dates.indexOf t) else none

/-- Value at row position `p`, column `i` of a panel. -/
def atPos (P : Panel) (p i : ℕ) : Option ℚ :=
  (P.dates.get? p).bind (fun u => P.val u i)

/-- Embedding of DataFrame.pct_change(w): value at row p is
row p over row p-w, minus one; missing when either operand is missing or
the denominator is zero (the source's data has nonzero prices). -/
def pct_change (w : ℕ) (P : Panel) : Panel where
  dates := P.dates
  n := P.n
  val := fun t i =>
    (posOf P t).bind (fun p =>
      if w ≤ p then
        (atPos P (p - w) i).bind (fun prev =>
          (P.val t i).bind (fun cur =>
            if prev = 0 then none else some (cur / prev - 1)))
      else none)

/-- Embedding of DataFrame.shift(-1): value at row p comes from row p+1,
missing on the last row. -/
def shiftBack (P : Panel) : Panel where
  dates := P.dates
  n := P.n
  val := fun t i => (posOf P t).bind (fun p => atPos P (p + 1) i)

/-- The forward-return panel built in AlphaBacktest.__init__
(backtest.py line 24): close.pct_change(1).shift(-1), computed from the
unfiltered close panel. -/
def returnsOf (close : Panel) : Panel :=
  shiftBack (pct_change 1 close)

/-- The w values ending at row position p (a rolling window). -/
def windowVals (P : Panel) (w p i : ℕ) : List (Option ℚ) :=
  (List.range w).map (fun j => atPos P (p + 1 - w + j) i)

/-- Embedding of rolling(w).mean() with the default min_periods = w:
missing before w rows exist or when any window value is missing. -/
def rollingMean (w : ℕ) (P : Panel) : Panel where
  dates := P.dates
  n := P.n
  val := fun t i =>
    (posOf P t).bind (fun p =>
      if w ≤ p + 1 then
        if (windowVals P w p i).all Option.isSome then
          some (meanQ ((windowVals P w p i).filterMap id))
        else none
      else none)

/-- The square of rolling(w).std() (ddof = 1): the rolling sample
variance.  The std itself is its square root; volatility_breakout only
compares against it, which is done on squares below. -/
def rollingVar (w : ℕ) (P : Panel) : Panel where
  dates := P.dates
  n := P.n
  val := fun t i =>
    (posOf P t).bind (fun p =>
      if w ≤ p + 1 then
        if (windowVals P w p i).all Option.isSome then
          some (sampleVar ((windowVals P w p i).filterMap id))
        else none
      else none)

/-- Embedding of AlphaFactors.price_reversal (alpha_factors.py lines
16-34): minus pct_change(5). -/
def price_reversal (prices : Panel) : Panel where
  dates := prices.dates
  n := prices.n
  val := fun t i => ((pct_change 5 prices).val t i).map (fun x => -x)

/-- Embedding of AlphaFactors.volume_price_ratio (alpha_factors.py lines
37-63): rolling 10-mean of abs volume change over abs price change plus
1e-8. -/
def volume_price_ratio (prices volumes : Panel) : Panel :=
  rollingMean 10
    { dates := prices.dates
      n := prices.n
      val := fun t i =>
        ((pct_change 1 volumes).val t i).bind (fun vc =>
          ((pct_change 1 prices).val t i).map (fun pc =>
            |vc| / (|pc| + 1 / 100000000))) }

/-- Embedding of AlphaFactors.volatility_breakout (alpha_factors.py
lines 66-96).  The band comparisons high > prevclose + 2*std and
low < prevclose - 2*std are NaN-comparisons-are-False booleans; they are
expressed on squares (0 < h-c and 4*var < (h-c)^2) since std is the
square root of the rolling variance.  astype(int) booleans never carry
NaN, so the signal is total on the index. -/
def volatility_breakout (high low close : Panel) : Panel where
  dates := close.dates
  n := close.n
  val := fun t i =>
    let cprev := (posOf close t).bind
      (fun p => if 1 ≤ p then atPos close (p - 1) i else none)
    let v := (rollingVar 20 close).val t i
    let up : Bool :=
      match high.val t i, cprev, v with
      | some h, some c, some vv => decide (0 < h - c) && decide (4 * vv < (h - c) ^ 2)
      | _, _, _ => false
    let dn : Bool :=
      match low.val t i, cprev, v with
      | some l, some c, some vv => decide (0 < c - l) && decide (4 * vv < (c - l) ^ 2)
      | _, _, _ => false
    some ((if up then 1 else 0) - (if dn then 1 else 0))

/-- The OHLCV input dictionary: keys mapped to panels. -/
abbrev OhlcvDict := List (String × Panel)

/-- Embedding of AlphaFactors.calculate_all_factors (alpha_factors.py
lines 99-124).  Python dictionary subscripts raise KeyError on absent
keys; the key accesses happen in the order close, volume, high, low, and
the key open is never accessed by this function. -/
def calculate_all_factors (d : OhlcvDict) :
    Except String (List (String × Panel)) :=
  match d.lookup "close" with
  | none => Except.error "KeyError: close"
  | some close =>
    match d.lookup "volume" with
    | none => Except.error "KeyError: volume"
    | some volume =>
      match d.lookup "high" with
      | none => Except.error "KeyError: high"
      | some high =>
        match d.lookup "low" with
        | none => Except.error "KeyError: low"
        | some low =>
          Except.ok
            [("price_reversal", price_reversal close),
             ("volume_price_ratio", volume_price_ratio close volume),
             ("volatility_breakout", volatility_breakout high low close)]

/-- Embedding of AlphaBacktest.__init__ (backtest.py lines 15-24): the
only key access is ohlcv_data['close'], used to build the forward-return
panel; no other validation is performed. -/
def initBacktest (d : OhlcvDict) : Except String Panel :=
  match d.lookup "close" with
  | none => Except.error "KeyError: close"
  | some close => Except.ok (returnsOf close)

/-- Number of instruments with data on a row (notna().sum()). -/
def nonNaCount (row : List (Option ℚ)) : ℕ :=
  (row.filterMap id).length

/-- The dates kept by the 80 percent filter of
AlphaBacktest.calculate_factors (backtest.py lines 29-34), determined
from the close panel alone. -/
def validDates (close : Panel) : List ℤ :=
  close.dates.filter
    (fun t => decide ((4 : ℚ) / 5 * (close.n : ℚ) ≤ (nonNaCount (close.row t) : ℚ)))

/-- Restriction of a panel to a sublist of dates (df.loc[valid_dates]). -/
def filterPanel (P : Panel) (ds : List ℤ) : Panel where
  dates := ds
  n := P.n
  val := fun t i => if t ∈ ds then P.val t i else none

/-- Embedding of AlphaBacktest.calculate_factors (backtest.py lines
26-42): filter every panel of the dictionary to the valid dates of the
close panel, then compute the factor dictionary. -/
def calculate_factors (d : OhlcvDict) :
    Except String (List (String × Panel)) :=
  match d.lookup "close" with
  | none => Except.error "KeyError: close"
  | some close =>
    calculate_all_factors
      (d.map (fun kv => (kv.1, filterPanel kv.2 (validDates close))))

/-! ### Evaluation orchestrator pieces

Source: backtest.py lines 202-244 (evaluate_all_factors). -/

/-- The exclusion test of evaluate_all_factors (backtest.py line 222):
long_short_returns.empty or long_short_returns.isna().all(). -/
def lsEmptyOrAllMissing (s : SeriesO ℚ) : Bool :=
  s.dates.isEmpty || s.dates.all (fun t => (s.val t).isNone)

/-- Names of the factors that pass the exclusion test and are evaluated
into the results dictionary. -/
def evaluatedFactorNames (k : ℕ) (factors : List (String × Panel))
    (returns : Panel) : List String :=
  (factors.filter (fun nf =>
    !lsEmptyOrAllMissing (calculate_long_short_returns k nf.2 returns))).map Prod.fst

/-- The sharpe_ratio entries of the evaluated factors, in order: the list
whose np.mean (0 when empty) the source stores as average_sharpe
(backtest.py lines 241-242; the correlation_matrix entry is excluded
there by the isinstance dict filter). -/
def sharpeListOf (k : ℕ) (factors : List (String × Panel))
    (returns : Panel) : List (Option RootQuot) :=
  (factors.filter (fun nf =>
    !lsEmptyOrAllMissing (calculate_long_short_returns k nf.2 returns))).map
    (fun nf =>
      calculate_sharpe_ratio (seriesVals (calculate_long_short_returns k nf.2 returns)) 252)

/-- Modelled from the spec (4.2): the equal-weighted mean forward return
over exactly the instruments holding the label, missing when no
instrument holds it.  Written from the spec's words, for comparison with
the source's masked mean; not part of the code embedding. -/
def specBucketMean (q : ℕ) (brow : List (Option ℕ)) (rrow : List (Option ℚ)) :
    Option ℚ :=
  meanOpt (List.zipWith (fun b r => if b = some q then r else none) brow rrow)

/-! ### Concrete example panels used by counterexamples and witnesses -/

/-- Factor panel: date 0 has values 1,2,3 (bucketable with k = 3), date 1
has the constant row 1,1,1 (skipped by the bucketer for k = 3). -/
def exFactor : Panel where
  dates := [0, 1]
  n := 3
  val := fun t i =>
    if t = 0 then ([some 1, some 2, some 3] : List (Option ℚ)).getD i none
    else if t = 1 then ([some 1, some 1, some 1] : List (Option ℚ)).getD i none
    else none

/-- Return panel aligned with exFactor: rows 3,6,9 and 1,2,3. -/
def exReturns : Panel where
  dates := [0, 1]
  n := 3
  val := fun t i =>
    if t = 0 then ([some 3, some 6, some 9] : List (Option ℚ)).getD i none
    else if t = 1 then ([some 1, some 2, some 3] : List (Option ℚ)).getD i none
    else none

/-- A factor panel whose values are identical across all instruments on
every date (the constant-factor scenario of the spec). -/
def exConstFactor : Panel where
  dates := [0, 1]
  n := 3
  val := fun t i => if (t = 0 ∨ t = 1) ∧ i < 3 then some 5 else none

/-- A one-instrument close panel whose middle date fails the 80 percent
filter (its close is missing). -/
def exClose : Panel where
  dates := [0, 1, 2]
  n := 1
  val := fun t i =>
    if i = 0 then
      if t = 0 then some 10 else if t = 1 then none
      else if t = 2 then some 12 else none
    else none

/-- An input dictionary with every required key except open. -/
def exDictNoOpen : OhlcvDict :=
  [("high", exClose), ("low", exClose), ("close", exClose), ("volume", exClose)]

/-- An input dictionary with all five required keys. -/
def exDictFull : OhlcvDict :=
  [("open", exClose), ("high", exClose), ("low", exClose),
   ("close", exClose), ("volume", exClose)]

/-- A factor panel with exactly one instrument sharing a date with valid
data in the return panel below (a single valid pair). -/
def exIcF : Panel where
  dates := [0]
  n := 3
  val := fun t i =>
    if t = 0 then ([some 1, none, some 2] : List (Option ℚ)).getD i none else none

/-- Return panel paired with exIcF: only the first instrument has both
values. -/
def exIcR : Panel where
  dates := [0]
  n := 3
  val := fun t i =>
    if t = 0 then ([some 5, some 6, none] : List (Option ℚ)).getD i none else none

lemma validPos_nodup (row : List (Option ℚ)) : (validPos row).Nodup :=
  (List.nodup_range _).filter _

lemma sortedPos_perm (row : List (Option ℚ)) :
    List.Perm (sortedPos row) (validPos row) :=
  List.perm_insertionSort _ _

lemma sortedPos_nodup (row : List (Option ℚ)) : (sortedPos row).Nodup :=
  ((sortedPos_perm row).nodup_iff).2 (validPos_nodup row)

lemma mem_validPos {row : List (Option ℚ)} {i : ℕ} :
    i ∈ validPos row ↔ i < row.length ∧ (row.getD i none).isSome := by
  simp [validPos, List.mem_filter, List.mem_range]

lemma mem_sortedPos {row : List (Option ℚ)} {i : ℕ} :
    i ∈ sortedPos row ↔ i < row.length ∧ (row.getD i none).isSome := by
  rw [(sortedPos_perm row).mem_iff]; exact mem_validPos

lemma sortedPos_length (row : List (Option ℚ)) :
    (sortedPos row).length = numValid row :=
  (sortedPos_perm row).length_eq

lemma sortedPos_sorted (row : List (Option ℚ)) :
    (sortedPos row).Sorted (keyLe row) :=
  List.sorted_insertionSort _ _

lemma keyLe_refl (row : List (Option ℚ)) (i : ℕ) : keyLe row i i :=
  Or.inr ⟨rfl, le_refl i⟩

lemma keyLe_antisymm {row : List (Option ℚ)} {i j : ℕ}
    (h1 : keyLe row i j) (h2 : keyLe row j i) : i = j := by
  rcases h1 with h1 | ⟨h1, h1n⟩ <;> rcases h2 with h2 | ⟨h2, h2n⟩
  · exact absurd (h1.trans h2) (lt_irrefl _)
  · exact absurd h1 (h2 ▸ lt_irrefl _)
  · exact absurd h2 (h1 ▸ lt_irrefl _)
  · exact Nat.le_antisymm h1n h2n

lemma sortedPos_rel_of_index_le {row : List (Option ℚ)} {p q : ℕ}
    (hpq : p ≤ q) (hq : q < (sortedPos row).length) :
    keyLe row ((sortedPos row).get ⟨p, lt_of_le_of_lt hpq hq⟩)
      ((sortedPos row).get ⟨q, hq⟩) := by
  rcases eq_or_lt_of_le hpq with h | h
  · subst h; exact keyLe_refl row _
  · exact List.Sorted.rel_get_of_lt (sortedPos_sorted row) h

lemma indexOf_le_of_keyLe {row : List (Option ℚ)} {i j : ℕ}
    (hi : i ∈ sortedPos row) (hj : j ∈ sortedPos row) (hk : keyLe row i j) :
    (sortedPos row).indexOf i ≤ (sortedPos row).indexOf j := by
  by_contra hlt
  push_neg at hlt
  have hjlen : (sortedPos row).indexOf j < (sortedPos row).length :=
    List.indexOf_lt_length.2 hj
  have hilen : (sortedPos row).indexOf i < (sortedPos row).length :=
    List.indexOf_lt_length.2 hi
  have hrel := sortedPos_rel_of_index_le (le_of_lt hlt) hilen
  rw [List.indexOf_get, List.indexOf_get] at hrel
  have := keyLe_antisymm hk hrel
  subst this
  exact absurd rfl (Nat.ne_of_lt hlt)

lemma bucketRow_length (k : ℕ) (row : List (Option ℚ)) :
    (bucketRow k row).length = row.length := by
  unfold bucketRow
  split <;> simp

lemma bucketRow_getD_of_mem {k : ℕ} {row : List (Option ℚ)} {i : ℕ}
    (hd : ¬ distinctCount row < k) (hi : i ∈ sortedPos row) :
    (bucketRow k row).getD i none =
      some (qb k (numValid row) ((sortedPos row).indexOf i + 1)) := by
  have hlen : i < row.length := (mem_sortedPos.1 hi).1
  unfold bucketRow
  rw [if_neg hd]
  rw [List.getD_eq_getElem?_getD, List.getElem?_map]
  rw [List.getElem?_range hlen]
  simp [hi]

lemma bucketRow_getD_of_not_mem {k : ℕ} {row : List (Option ℚ)} {i : ℕ}
    (hd : ¬ distinctCount row < k) (hi : i ∉ sortedPos row) :
    (bucketRow k row).getD i none = none := by
  unfold bucketRow
  rw [if_neg hd]
  rcases lt_or_ge i row.length with h | h
  · rw [List.getD_eq_getElem?_getD, List.getElem?_map, List.getElem?_range h]
    simp [hi]
  · apply List.getD_eq_default
    simpa using h

lemma bucketRow_getD_none_of_missing {k : ℕ} {row : List (Option ℚ)} {i : ℕ}
    (hi : row.getD i none = none) :
    (bucketRow k row).getD i none = none := by
  unfold bucketRow
  split
  · rcases lt_or_ge i row.length with h | h
    · simp [List.getD_eq_getElem?_getD]
    · apply List.getD_eq_default; simpa using h
  · rcases lt_or_ge i row.length with h | h
    · rw [List.getD_eq_getElem?_getD, List.getElem?_map, List.getElem?_range h]
      have : i ∉ sortedPos row := by
        rw [mem_sortedPos]
        intro hc
        rw [hi] at hc
        simp at hc
      simp [this]
    · apply List.getD_eq_default; simpa using h

lemma qb_pos (k m r : ℕ) : 1 ≤ qb k m r := by
  unfold qb
  split
  · exact le_refl 1
  · exact Nat.le_max_left 1 _

lemma qb_le {k m r : ℕ} (hk : 1 ≤ k) (hr : r ≤ m) : qb k m r ≤ k := by
  unfold qb
  split
  · exact hk
  · rename_i hm
    push_neg at hm
    apply max_le hk
    rw [Nat.div_le_iff_le_mul_add_pred (by omega)]
    have h1 : (r - 1) * k ≤ (m - 1) * k := Nat.mul_le_mul_right k (by omega)
    have h2 : (m - 1) * k + (m - 1 - 1) = (m - 1) * k + (m - 2) := by omega
    calc (r - 1) * k + (m - 2) ≤ (m - 1) * k + (m - 2) := by omega
    _ = (m - 1) * k + (m - 1 - 1) := by omega

lemma qb_mono {k m : ℕ} {r s : ℕ} (hrs : r ≤ s) : qb k m r ≤ qb k m s := by
  unfold qb
  split
  · exact le_refl 1
  · apply max_le_max (le_refl 1)
    apply Nat.div_le_div_right
    have : (r - 1) * k ≤ (s - 1) * k := Nat.mul_le_mul_right k (by omega)
    omega

lemma qb_eq_one_iff {k m : ℕ} (hm : 2 ≤ m) (p : ℕ) :
    qb k m (p + 1) = 1 ↔ p * k ≤ m - 1 := by
  unfold qb
  rw [if_neg (by omega)]
  simp only [Nat.add_sub_cancel]
  constructor
  · intro h
    by_contra hc
    push_neg at hc
    have : 2 ≤ (p * k + (m - 2)) / (m - 1) := by
      rw [Nat.le_div_iff_mul_le (by omega : 0 < m - 1)]
      omega
    omega
  · intro h
    have : (p * k + (m - 2)) / (m - 1) ≤ 1 := by
      rw [Nat.div_le_iff_le_mul_add_pred (by omega : 0 < m - 1)]
      omega
    omega

lemma qb_eq_iff_ge_two {k m b : ℕ} (hm : 2 ≤ m) (hb : 2 ≤ b) (p : ℕ) :
    qb k m (p + 1) = b ↔ (m - 1) * (b - 1) < p * k ∧ p * k ≤ (m - 1) * b := by
  obtain ⟨d, rfl⟩ : ∃ d, m = d + 2 := ⟨m - 2, by omega⟩
  obtain ⟨c, rfl⟩ : ∃ c, b = c + 2 := ⟨b - 2, by omega⟩
  unfold qb
  rw [if_neg (by omega)]
  have ha : p + 1 - 1 = p := rfl
  have ha2 : d + 2 - 2 = d := rfl
  have ha3 : d + 2 - 1 = d + 1 := rfl
  have ha4 : c + 2 - 1 = c + 1 := rfl
  rw [ha, ha2, ha3, ha4]
  have hd : 0 < d + 1 := by omega
  have key : (p * k + d) / (d + 1) = c + 2 ↔
      ((d + 1) * (c + 1) < p * k ∧ p * k ≤ (d + 1) * (c + 2)) := by
    constructor
    · intro h
      have h1 : (c + 2) * (d + 1) ≤ p * k + d := by
        rw [← Nat.le_div_iff_mul_le hd]
        omega
      have h2 : p * k + d < (c + 3) * (d + 1) := by
        rw [← Nat.div_lt_iff_lt_mul hd]
        omega
      have e1 : (c + 2) * (d + 1) = (d + 1) * (c + 1) + (d + 1) := by ring
      have e2 : (c + 3) * (d + 1) = (d + 1) * (c + 2) + (d + 1) := by ring
      omega
    · rintro ⟨h1, h2⟩
      have e1 : (c + 2) * (d + 1) = (d + 1) * (c + 1) + (d + 1) := by ring
      have e2 : (c + 3) * (d + 1) = (d + 1) * (c + 2) + (d + 1) := by ring
      have hge : c + 2 ≤ (p * k + d) / (d + 1) := by
        rw [Nat.le_div_iff_mul_le hd]
        omega
      have hlt : (p * k + d) / (d + 1) < c + 3 := by
        rw [Nat.div_lt_iff_lt_mul hd]
        omega
      omega
  constructor
  · intro h
    apply key.1
    omega
  · intro h
    have := key.2 h
    omega

lemma bucketRow_getD_some_iff {k : ℕ} {row : List (Option ℚ)} {i b : ℕ}
    (hd : ¬ distinctCount row < k) :
    (bucketRow k row).getD i none = some b ↔
      i ∈ sortedPos row ∧ qb k (numValid row) ((sortedPos row).indexOf i + 1) = b := by
  constructor
  · intro h
    by_cases hi : i ∈ sortedPos row
    · rw [bucketRow_getD_of_mem hd hi] at h
      exact ⟨hi, Option.some_injective _ h⟩
    · rw [bucketRow_getD_of_not_mem hd hi] at h
      exact absurd h (by simp)
  · rintro ⟨hi, hq⟩
    rw [bucketRow_getD_of_mem hd hi, hq]

lemma bucketSize_eq_count {k : ℕ} {row : List (Option ℚ)}
    (hd : ¬ distinctCount row < k) (b : ℕ) :
    bucketSize k row b =
      ((Finset.range (numValid row)).filter
        (fun p => qb k (numValid row) (p + 1) = b)).card := by
  unfold bucketSize
  apply Finset.card_bij (fun i _ => (sortedPos row).indexOf i)
  · intro a ha
    rw [Finset.mem_filter] at ha
    obtain ⟨ham, hav⟩ := ha
    rw [bucketRow_getD_some_iff hd] at hav
    rw [Finset.mem_filter, Finset.mem_range]
    refine ⟨?_, ?_⟩
    · rw [← sortedPos_length]
      exact List.indexOf_lt_length.2 hav.1
    · exact hav.2
  · intro a1 ha1 a2 ha2 heq
    rw [Finset.mem_filter] at ha1 ha2
    rw [bucketRow_getD_some_iff hd] at ha1 ha2
    exact List.indexOf_inj ha1.2.1 ha2.2.1 |>.1 heq
  · intro p hp
    rw [Finset.mem_filter, Finset.mem_range] at hp
    obtain ⟨hpm, hpv⟩ := hp
    have hplen : p < (sortedPos row).length := by
      rw [sortedPos_length]; exact hpm
    refine ⟨(sortedPos row).get ⟨p, hplen⟩, ?_, ?_⟩
    · have hmem : (sortedPos row).get ⟨p, hplen⟩ ∈ sortedPos row := List.get_mem _ _ _
      have hidx : (sortedPos row).indexOf ((sortedPos row).get ⟨p, hplen⟩) = p := by
        have := List.indexOf_getElem (sortedPos_nodup row) p hplen
        simpa using this
      rw [Finset.mem_filter, Finset.mem_range]
      constructor
      · exact (mem_sortedPos.1 hmem).1
      · rw [bucketRow_getD_some_iff hd]
        exact ⟨hmem, by rw [hidx]; exact hpv⟩
    · have := List.indexOf_getElem (sortedPos_nodup row) p hplen
      simpa using this

lemma card_filter_mul_le {m k c : ℕ} (hk : 0 < k) (hm : c / k + 1 ≤ m) :
    ((Finset.range m).filter (fun p => p * k ≤ c)).card = c / k + 1 := by
  have hset : (Finset.range m).filter (fun p => p * k ≤ c) = Finset.range (c / k + 1) := by
    ext p
    rw [Finset.mem_filter, Finset.mem_range, Finset.mem_range, Nat.lt_succ_iff,
      Nat.le_div_iff_mul_le hk]
    constructor
    · intro h
      exact h.2
    · intro h
      refine ⟨?_, h⟩
      have hp : p ≤ c / k := (Nat.le_div_iff_mul_le hk).2 h
      omega
  rw [hset, Finset.card_range]

lemma count_qb_one {k m : ℕ} (hk : 1 ≤ k) (hm : 2 ≤ m) :
    ((Finset.range m).filter (fun p => qb k m (p + 1) = 1)).card = (m - 1) / k + 1 := by
  have hcong : (Finset.range m).filter (fun p => qb k m (p + 1) = 1) =
      (Finset.range m).filter (fun p => p * k ≤ m - 1) := by
    apply Finset.filter_congr
    intro p _
    rw [qb_eq_one_iff hm]
  rw [hcong]
  apply card_filter_mul_le hk
  have : (m - 1) / k ≤ m - 1 := Nat.div_le_self _ _
  omega

lemma count_qb_ge_two {k m b : ℕ} (hk : 1 ≤ k) (hm : 2 ≤ m) (hb : 2 ≤ b) (hbk : b ≤ k) :
    ((Finset.range m).filter (fun p => qb k m (p + 1) = b)).card
      = (m - 1) * b / k - (m - 1) * (b - 1) / k := by
  have hsub : (Finset.range m).filter (fun p => p * k ≤ (m - 1) * (b - 1)) ⊆
      (Finset.range m).filter (fun p => p * k ≤ (m - 1) * b) := by
    intro p hp
    rw [Finset.mem_filter] at hp
    rw [Finset.mem_filter]
    exact ⟨hp.1, le_trans hp.2 (Nat.mul_le_mul_left _ (by omega))⟩
  have hdiff : (Finset.range m).filter (fun p => qb k m (p + 1) = b) =
      ((Finset.range m).filter (fun p => p * k ≤ (m - 1) * b)) \
        ((Finset.range m).filter (fun p => p * k ≤ (m - 1) * (b - 1))) := by
    ext p
    rw [Finset.mem_sdiff, Finset.mem_filter, Finset.mem_filter, Finset.mem_filter]
    rw [qb_eq_iff_ge_two hm hb]
    constructor
    · rintro ⟨hpm, h1, h2⟩
      exact ⟨⟨hpm, h2⟩, by intro hcon; omega⟩
    · rintro ⟨⟨hpm, h2⟩, hne⟩
      refine ⟨hpm, ?_, h2⟩
      by_contra hcon
      push_neg at hcon
      exact hne ⟨hpm, hcon⟩
  have hca : ((Finset.range m).filter (fun p => p * k ≤ (m - 1) * b)).card
      = (m - 1) * b / k + 1 := by
    apply card_filter_mul_le hk
    have h1 : (m - 1) * b ≤ (m - 1) * k := Nat.mul_le_mul_left _ hbk
    have h2 : (m - 1) * b / k ≤ (m - 1) * k / k := Nat.div_le_div_right h1
    have h3 : (m - 1) * k / k = m - 1 := Nat.mul_div_cancel _ (by omega)
    omega
  have hcb : ((Finset.range m).filter (fun p => p * k ≤ (m - 1) * (b - 1))).card
      = (m - 1) * (b - 1) / k + 1 := by
    apply card_filter_mul_le hk
    have h1 : (m - 1) * (b - 1) ≤ (m - 1) * k := Nat.mul_le_mul_left _ (by omega)
    have h2 : (m - 1) * (b - 1) / k ≤ (m - 1) * k / k := Nat.div_le_div_right h1
    have h3 : (m - 1) * k / k = m - 1 := Nat.mul_div_cancel _ (by omega)
    omega
  have hmono : (m - 1) * (b - 1) / k ≤ (m - 1) * b / k :=
    Nat.div_le_div_right (Nat.mul_le_mul_left _ (by omega))
  rw [hdiff, Finset.card_sdiff hsub, hca, hcb]
  omega

lemma div_add_div_le_div (x y k : ℕ) (hk : 0 < k) : x / k + y / k ≤ (x + y) / k := by
  rw [Nat.le_div_iff_mul_le hk, Nat.add_mul]
  exact Nat.add_le_add (Nat.div_mul_le_self x k) (Nat.div_mul_le_self y k)

lemma div_add_le_div_add_div (x y k : ℕ) (hk : 0 < k) :
    (x + y) / k ≤ x / k + y / k + 1 := by
  rw [Nat.div_le_iff_le_mul_add_pred hk]
  have hx := Nat.div_add_mod x k
  have hy := Nat.div_add_mod y k
  have hxm : x % k < k := Nat.mod_lt _ hk
  have hym : y % k < k := Nat.mod_lt _ hk
  have e : k * (x / k + y / k + 1) = k * (x / k) + k * (y / k) + k := by ring
  omega

lemma count_qb_within_one {k m b b' : ℕ} (hk : 1 ≤ k) (hmk : k ≤ m)
    (hb1 : 1 ≤ b) (hbk : b ≤ k) (hb1' : 1 ≤ b') (hbk' : b' ≤ k) :
    ((Finset.range m).filter (fun p => qb k m (p + 1) = b)).card ≤
      ((Finset.range m).filter (fun p => qb k m (p + 1) = b')).card + 1 := by
  rcases eq_or_lt_of_le hk with hk1 | hk2
  · have hbe : b = 1 := by omega
    have hbe' : b' = 1 := by omega
    subst hbe
    subst hbe'
    omega
  · have hm : 2 ≤ m := by omega
    have key : ∀ c, 1 ≤ c → c ≤ k →
        (m - 1) / k ≤ ((Finset.range m).filter (fun p => qb k m (p + 1) = c)).card ∧
        ((Finset.range m).filter (fun p => qb k m (p + 1) = c)).card ≤ (m - 1) / k + 1 := by
      intro c hc1 hck
      rcases eq_or_lt_of_le hc1 with h1 | h2
      · rw [← h1, count_qb_one hk hm]
        omega
      · have hc2 : 2 ≤ c := h2
        rw [count_qb_ge_two hk hm hc2 hck]
        have e : (m - 1) * (c - 1) + (m - 1) = (m - 1) * c := by
          obtain ⟨c0, rfl⟩ : ∃ c0, c = c0 + 2 := ⟨c - 2, by omega⟩
          have hc0 : c0 + 2 - 1 = c0 + 1 := rfl
          rw [hc0]
          ring
        have hlow := div_add_div_le_div ((m - 1) * (c - 1)) (m - 1) k (by omega)
        have hhigh := div_add_le_div_add_div ((m - 1) * (c - 1)) (m - 1) k (by omega)
        rw [e] at hlow hhigh
        generalize hgg : (m - 1) * c / k = g at hlow hhigh ⊢
        generalize hii : (m - 1) * (c - 1) / k = i at hlow hhigh ⊢
        generalize hjj : (m - 1) / k = j at hlow hhigh ⊢
        omega
    obtain ⟨hbl, hbu⟩ := key b hb1 hbk
    obtain ⟨hbl2, hbu2⟩ := key b' hb1' hbk'
    omega

lemma numValid_eq_length_filterMap (row : List (Option ℚ)) :
    numValid row = (row.filterMap id).length := by
  unfold numValid validPos
  induction row with
  | nil => rfl
  | cons o rest ih =>
    rw [List.length_cons, List.range_succ_eq_map, List.filter_cons, List.filter_map]
    have hcomp : ((fun i => ((o :: rest).getD i none).isSome) ∘ Nat.succ)
        = fun i => ((rest).getD i none).isSome := by
      funext i
      simp [List.getD]
    rw [hcomp]
    simp only [List.getD_eq_getElem?_getD] at ih
    cases o with
    | none => simp [List.filterMap_cons, ih]
    | some x => simp [List.filterMap_cons, ih]

lemma distinctCount_le_numValid (row : List (Option ℚ)) :
    distinctCount row ≤ numValid row := by
  rw [numValid_eq_length_filterMap]
  unfold distinctCount
  exact List.Sublist.length_le (List.dedup_sublist _)

lemma Panel.row_length (P : Panel) (t : ℤ) : (P.row t).length = P.n := by
  simp [Panel.row]

lemma getD_some_lt_length {row : List (Option ℚ)} {i : ℕ} {v : ℚ}
    (h : row.getD i none = some v) : i < row.length := by
  by_contra hc
  push_neg at hc
  rw [List.getD_eq_default _ _ hc] at h
  exact absurd h (by simp)

/-- C5: on a date with at least k distinct non-missing factor values, every
instrument with a value is assigned exactly one bucket label in 1..k,
missing instruments receive none, ranks are pairwise distinct (ties broken
by first-occurrence order), bucket sizes differ by at most one, and the
assignment is monotone in factor value with ties broken by instrument
order, so Q1 holds the lowest values and Qk the highest. -/
theorem c5_bucketer_partition (k : ℕ) (row : List (Option ℚ))
    (hk : 1 ≤ k) (hd : k ≤ distinctCount row) :
    (∀ i < row.length, (row.getD i none).isSome →
      ∃ b, (bucketRow k row).getD i none = some b ∧ 1 ≤ b ∧ b ≤ k) ∧
    (∀ i, row.getD i none = none → (bucketRow k row).getD i none = none) ∧
    (∀ i j, i ∈ sortedPos row → j ∈ sortedPos row → i ≠ j →
      rankFirst row i ≠ rankFirst row j) ∧
    (∀ b b', 1 ≤ b → b ≤ k → 1 ≤ b' → b' ≤ k →
      bucketSize k row b ≤ bucketSize k row b' + 1) ∧
    (∀ i j vi vj bi bj, row.getD i none = some vi → row.getD j none = some vj →
      (vi < vj ∨ (vi = vj ∧ i ≤ j)) →
      (bucketRow k row).getD i none = some bi →
      (bucketRow k row).getD j none = some bj → bi ≤ bj) := by
  have hskip : ¬ distinctCount row < k := by omega
  have hmk : k ≤ numValid row := le_trans hd (distinctCount_le_numValid row)
  refine ⟨?_, ?_, ?_, ?_, ?_⟩
  · intro i hi hsome
    have hmem : i ∈ sortedPos row := mem_sortedPos.2 ⟨hi, hsome⟩
    refine ⟨qb k (numValid row) ((sortedPos row).indexOf i + 1),
      bucketRow_getD_of_mem hskip hmem, qb_pos _ _ _, ?_⟩
    apply qb_le hk
    have : (sortedPos row).indexOf i < (sortedPos row).length :=
      List.indexOf_lt_length.2 hmem
    rw [sortedPos_length] at this
    omega
  · intro i hi
    exact bucketRow_getD_none_of_missing hi
  · intro i j hi hj hne
    unfold rankFirst
    intro hc
    have := (List.indexOf_inj hi hj).1 (by omega)
    exact hne this
  · intro b b' hb hbk hb2 hbk2
    rw [bucketSize_eq_count hskip, bucketSize_eq_count hskip]
    exact count_qb_within_one hk hmk hb hbk hb2 hbk2
  · intro i j vi vj bi bj hvi hvj hord hbi hbj
    have hmi : i ∈ sortedPos row :=
      mem_sortedPos.2 ⟨getD_some_lt_length hvi, by rw [hvi]; rfl⟩
    have hmj : j ∈ sortedPos row :=
      mem_sortedPos.2 ⟨getD_some_lt_length hvj, by rw [hvj]; rfl⟩
    have hkey : keyLe row i j := by
      unfold keyLe rowVal
      rw [hvi, hvj]
      simpa using hord
    have hidx := indexOf_le_of_keyLe hmi hmj hkey
    rw [bucketRow_getD_some_iff hskip] at hbi hbj
    rw [← hbi.2, ← hbj.2]
    exact qb_mono (by omega)

/-- C4: on every date whose row has fewer distinct non-missing factor
values than the quantile count, the bucketer assigns no label to any
instrument, the date is recorded among the skip diagnostics, and bucketing
still succeeds (labels are produced) on every other date with enough
distinct values, so evaluation continues without a fatal error. -/
theorem c4_insufficient_distinct_skip (k : ℕ) (factor : Panel) (t : ℤ)
    (ht : t ∈ factor.dates) (hlt : distinctCount (factor.row t) < k) :
    (∀ i, (bucketRow k (factor.row t)).getD i none = none) ∧
    t ∈ skippedDates k factor ∧
    (∀ u, u ∈ factor.dates → k ≤ distinctCount (factor.row u) →
      ∀ i < factor.n, ((factor.row u).getD i none).isSome →
        ((bucketRow k (factor.row u)).getD i none).isSome) := by
  refine ⟨?_, ?_, ?_⟩
  · intro i
    unfold bucketRow
    rw [if_pos hlt]
    simp [List.getD_eq_getElem?_getD]
  · unfold skippedDates
    rw [List.mem_filter]
    exact ⟨ht, by simpa using hlt⟩
  · intro u hu hku i hi hsome
    have hmem : i ∈ sortedPos (factor.row u) :=
      mem_sortedPos.2 ⟨by rw [Panel.row_length]; exact hi, hsome⟩
    rw [bucketRow_getD_of_mem (by omega) hmem]
    rfl

lemma labels_mem {k : ℕ} (hk : 1 ≤ k) (factor returns : Panel) :
    k ∈ (calculate_factor_returns k factor returns).labels ∧
      1 ∈ (calculate_factor_returns k factor returns).labels := by
  unfold calculate_factor_returns
  constructor <;> rw [List.mem_range'_1] <;> omega

lemma long_short_eq_branch {k : ℕ} (hk : 1 ≤ k) (factor returns : Panel) :
    calculate_long_short_returns k factor returns =
      { dates := (calculate_factor_returns k factor returns).dates
        val := fun t =>
          ((calculate_factor_returns k factor returns).val k t).bind
            (fun a => ((calculate_factor_returns k factor returns).val 1 t).map
              (fun b => a - b)) } := by
  unfold calculate_long_short_returns
  rw [if_pos (labels_mem hk factor returns)]

/-- C2: the long-short series of calculate_long_short_returns equals the
Qk column minus the Q1 column of the grouped-return table at every date
where both are defined, is missing at every date where either is missing,
and is missing everywhere (an entirely undefined series; no exception, the
embedding being total) when either extreme column is missing at all dates. -/
theorem c2_long_short_composition (k : ℕ) (hk : 1 ≤ k) (factor returns : Panel) :
    (∀ t a b,
        (calculate_factor_returns k factor returns).val k t = some a →
        (calculate_factor_returns k factor returns).val 1 t = some b →
        (calculate_long_short_returns k factor returns).val t = some (a - b)) ∧
    (∀ t, (calculate_factor_returns k factor returns).val k t = none →
        (calculate_long_short_returns k factor returns).val t = none) ∧
    (∀ t, (calculate_factor_returns k factor returns).val 1 t = none →
        (calculate_long_short_returns k factor returns).val t = none) ∧
    ((∀ t, (calculate_factor_returns k factor returns).val k t = none) →
      ∀ t, (calculate_long_short_returns k factor returns).val t = none) ∧
    ((∀ t, (calculate_factor_returns k factor returns).val 1 t = none) →
      ∀ t, (calculate_long_short_returns k factor returns).val t = none) := by
  rw [long_short_eq_branch hk]
  refine ⟨?_, ?_, ?_, ?_, ?_⟩
  · intro t a b ha hb
    simp [ha, hb]
  · intro t ha
    simp [ha]
  · intro t hb
    cases hq : (calculate_factor_returns k factor returns).val k t <;> simp [hq, hb]
  · intro hall t
    simp [hall t]
  · intro hall t
    cases hq : (calculate_factor_returns k factor returns).val k t <;> simp [hq, hall t]

/-- C9: for every quantile count k ≥ 1 the grouped-return table has
exactly the k columns Q1..Qk (labels 1..k) over a date index containing
the factor's full index — even when every date is skipped — hence
calculate_long_short_returns always takes the Qk-minus-Q1 branch and its
fallback returning the empty all-missing series is unreachable. -/
theorem c9_full_columns_fallback_unreachable (k : ℕ) (hk : 1 ≤ k)
    (factor returns : Panel) :
    (calculate_factor_returns k factor returns).labels = List.range' 1 k ∧
    (calculate_factor_returns k factor returns).labels.length = k ∧
    1 ∈ (calculate_factor_returns k factor returns).labels ∧
    k ∈ (calculate_factor_returns k factor returns).labels ∧
    (∀ t ∈ factor.dates, t ∈ (calculate_factor_returns k factor returns).dates) ∧
    calculate_long_short_returns k factor returns =
      { dates := (calculate_factor_returns k factor returns).dates
        val := fun t =>
          ((calculate_factor_returns k factor returns).val k t).bind
            (fun a => ((calculate_factor_returns k factor returns).val 1 t).map
              (fun b => a - b)) } := by
  refine ⟨rfl, by simp [calculate_factor_returns], (labels_mem hk factor returns).2,
    (labels_mem hk factor returns).1, ?_, long_short_eq_branch hk factor returns⟩
  intro t ht
  unfold calculate_factor_returns mergeDates
  simp [ht]

lemma centDot_single (x y : ℚ) : centDot [x] [y] = 0 := by
  simp [centDot, meanQ]

lemma spearman_short {l : List (ℚ × ℚ)} (h : l.length < 2) : spearman l = none := by
  match l with
  | [] => rfl
  | [x] =>
    unfold spearman
    rw [if_pos]
    left
    simpa [avgRanks] using centDot_single (avgRank [x.1] x.1) (avgRank [x.1] x.1)
  | a :: b :: rest => exact absurd h (by simp)

/-- C6: at each date present in both the factor and forward-return
panels, the IC series of calculate_factor_ic carries the Spearman rank
correlation computed over exactly the instruments with both values
present, and is missing at every date with fewer than two valid pairs
(with one pair the rank variance is zero, so the correlation is NaN even
though the source's guard only requires one pair). -/
theorem c6_ic_valid_pairs (factor returns : Panel) (t : ℤ)
    (ht : t ∈ factor.dates) (hr : t ∈ returns.dates) :
    ((calculate_factor_ic factor returns).val t =
      spearman (validPairs (factor.row t) (returns.row t))) ∧
    ((validPairs (factor.row t) (returns.row t)).length < 2 →
      (calculate_factor_ic factor returns).val t = none) := by
  constructor
  · show (if t ∈ factor.dates ∧ t ∈ returns.dates then _ else _) = _
    rw [if_pos ⟨ht, hr⟩]
    split
    · rfl
    · rename_i hlen
      exact (spearman_short (by omega)).symm
  · intro hlen
    show (if t ∈ factor.dates ∧ t ∈ returns.dates then _ else _) = _
    rw [if_pos ⟨ht, hr⟩]
    split
    · exact spearman_short hlen
    · rfl

lemma sampleVar_nonneg {xs : List ℚ} (h2 : 2 ≤ xs.length) : 0 ≤ sampleVar xs := by
  unfold sampleVar
  apply div_nonneg
  · apply List.sum_nonneg
    intro x hx
    rw [List.mem_map] at hx
    obtain ⟨y, _, rfl⟩ := hx
    positivity
  · have : (2 : ℚ) ≤ (xs.length : ℚ) := by exact_mod_cast h2
    linarith

lemma filterMap_id_replicate_some (n : ℕ) :
    (List.replicate n (some (0:ℚ))).filterMap id = List.replicate n 0 := by
  induction n with
  | zero => rfl
  | succ m ih => simp [List.replicate_succ, List.filterMap_cons, ih]

lemma sampleVar_replicate_zero (n : ℕ) :
    sampleVar (List.replicate n (0:ℚ)) = 0 := by
  unfold sampleVar
  have hm : meanQ (List.replicate n (0:ℚ)) = 0 := by
    unfold meanQ
    simp
  rw [hm]
  simp

/-- C7: calculate_sharpe_ratio returns mean(r)*A / (std(r)*sqrt A) —
represented exactly as (mean*A)/sqrt(var*A), the two being equal by the
square-root product identity in the third conjunct — whenever the
standard deviation is defined and nonzero, returns exactly 0 when the
standard deviation is zero, and in particular returns exactly 0 on a
constant-zero return series. -/
theorem c7_sharpe_guard (r : List (Option ℚ)) (A : ℚ)
    (h2 : 2 ≤ (r.filterMap id).length) :
    (sampleVar (r.filterMap id) ≠ 0 →
      calculate_sharpe_ratio r A =
        some ⟨meanQ (r.filterMap id) * A, sampleVar (r.filterMap id) * A⟩) ∧
    (sampleVar (r.filterMap id) = 0 → calculate_sharpe_ratio r A = some ⟨0, 1⟩) ∧
    (0 ≤ A →
      Real.sqrt ((sampleVar (r.filterMap id) * A : ℚ)) =
        Real.sqrt ((sampleVar (r.filterMap id) : ℚ)) * Real.sqrt ((A : ℚ))) ∧
    (∀ n, 2 ≤ n →
      calculate_sharpe_ratio (List.replicate n (some (0:ℚ))) A = some ⟨0, 1⟩) := by
  refine ⟨?_, ?_, ?_, ?_⟩
  · intro hv
    unfold calculate_sharpe_ratio
    rw [if_neg (by omega), if_neg hv]
  · intro hv
    unfold calculate_sharpe_ratio
    rw [if_neg (by omega), if_pos hv]
  · intro hA
    push_cast
    apply Real.sqrt_mul
    have := sampleVar_nonneg h2
    exact_mod_cast this
  · intro n hn
    unfold calculate_sharpe_ratio
    rw [filterMap_id_replicate_some]
    rw [if_neg (by simp; omega), if_pos (sampleVar_replicate_zero n)]

lemma lookup_map_filterPanel (d : OhlcvDict) (ds : List ℤ) (s : String) :
    (d.map (fun kv => (kv.1, filterPanel kv.2 ds))).lookup s
      = (d.lookup s).map (fun p => filterPanel p ds) := by
  induction d with
  | nil => rfl
  | cons kv rest ih =>
    obtain ⟨key, v⟩ := kv
    simp only [List.map_cons, List.lookup]
    cases h : s == key
    · simpa [h] using ih
    · simp [h]

/-- C8 (amended): a missing close key raises KeyError immediately at
construction; missing volume, high or low keys raise KeyError only when
factor computation first runs, after the 80-percent date filter; when
close, volume, high and low are present no hard failure occurs at all —
in particular a missing open key is never detected, so the system does
not fail fast with a configuration error for every absent required key. -/
theorem c8_keyerror_timing (d : OhlcvDict) :
    (d.lookup "close" = none →
      initBacktest d = Except.error "KeyError: close" ∧
      calculate_factors d = Except.error "KeyError: close") ∧
    (∀ c, d.lookup "close" = some c → d.lookup "volume" = none →
      initBacktest d = Except.ok (returnsOf c) ∧
      calculate_factors d = Except.error "KeyError: volume") ∧
    (∀ c v, d.lookup "close" = some c → d.lookup "volume" = some v →
      d.lookup "high" = none →
      calculate_factors d = Except.error "KeyError: high") ∧
    (∀ c v h, d.lookup "close" = some c → d.lookup "volume" = some v →
      d.lookup "high" = some h → d.lookup "low" = none →
      calculate_factors d = Except.error "KeyError: low") ∧
    (∀ c v h l, d.lookup "close" = some c → d.lookup "volume" = some v →
      d.lookup "high" = some h → d.lookup "low" = some l →
      (initBacktest d).isOk = true ∧ (calculate_factors d).isOk = true) := by
  refine ⟨?_, ?_, ?_, ?_, ?_⟩
  · intro hc
    constructor
    · simp [initBacktest, hc]
    · simp [calculate_factors, hc]
  · intro c hc hv
    constructor
    · simp [initBacktest, hc]
    · simp [calculate_factors, hc, calculate_all_factors, lookup_map_filterPanel, hv]
  · intro c v hc hv hh
    simp [calculate_factors, hc, calculate_all_factors, lookup_map_filterPanel, hv, hh]
  · intro c v h hc hv hh hl
    simp [calculate_factors, hc, calculate_all_factors, lookup_map_filterPanel, hv, hh, hl]
  · intro c v h l hc hv hh hl
    constructor
    · rw [show initBacktest d = Except.ok (returnsOf c) by simp [initBacktest, hc]]
      rfl
    · have hred : calculate_factors d = Except.ok
          [("price_reversal", price_reversal (filterPanel c (validDates c))),
           ("volume_price_ratio", volume_price_ratio (filterPanel c (validDates c))
             (filterPanel v (validDates c))),
           ("volatility_breakout", volatility_breakout (filterPanel h (validDates c))
             (filterPanel l (validDates c)) (filterPanel c (validDates c)))] := by
        simp [calculate_factors, hc, calculate_all_factors, lookup_map_filterPanel,
          hv, hh, hl]
      rw [hred]
      rfl

/-- C10: every factor panel produced by calculate_factors is indexed by
exactly the dates of the close panel on which at least 80 percent of
instruments have a close price, while the forward-return panel built in
the constructor keeps the unfiltered close index, so the factor and
return date axes can differ. -/
theorem c10_factor_dates_filtered (d : OhlcvDict) (close : Panel)
    (hc : d.lookup "close" = some close) :
    (∀ fs, calculate_factors d = Except.ok fs →
      ∀ nf ∈ fs, nf.2.dates = validDates close) ∧
    validDates close = close.dates.filter
      (fun t => decide ((4 : ℚ) / 5 * (close.n : ℚ) ≤ (nonNaCount (close.row t) : ℚ))) ∧
    initBacktest d = Except.ok (returnsOf close) ∧
    (returnsOf close).dates = close.dates := by
  refine ⟨?_, rfl, ?_, rfl⟩
  · intro fs hfs
    simp only [calculate_factors, hc, calculate_all_factors, lookup_map_filterPanel,
      Option.map_some'] at hfs
    cases hv : d.lookup "volume" with
    | none =>
      rw [hv] at hfs
      exact absurd hfs (by simp)
    | some volume =>
      rw [hv] at hfs
      cases hh : d.lookup "high" with
      | none =>
        rw [hh] at hfs
        exact absurd hfs (by simp)
      | some high =>
        rw [hh] at hfs
        cases hl : d.lookup "low" with
        | none =>
          rw [hl] at hfs
          exact absurd hfs (by simp)
        | some low =>
          rw [hl] at hfs
          simp only [Option.map_some', Except.ok.injEq] at hfs
          subst hfs
          intro nf hnf
          simp only [List.mem_cons, List.not_mem_nil, or_false] at hnf
          rcases hnf with h | h | h
          · rw [h]
            rfl
          · rw [h]
            rfl
          · rw [h]
            rfl
  · simp [initBacktest, hc]

/-- C1: the claim says each bucket-return value is the equal-weighted
mean of forward returns over exactly the instruments holding the label,
and missing when no instrument holds it.  The code computes the row mean
of returns*mask, dividing the bucket sum by the count of all instruments
with non-missing returns and yielding 0 for empty buckets: on date 0 of
the panels below bucket Q1 holds only instrument 0 (return 3), yet the
code produces 1 = 3/3 where the spec-side mean is 3; on the skipped date
1 the code produces 0 where the claim requires a missing value. -/
theorem c1_masked_mean_divergence :
    (calculate_factor_returns 3 exFactor exReturns).val 1 0 = some 1 ∧
    specBucketMean 1 (bucketRow 3 (exFactor.row 0)) (exReturns.row 0) = some 3 ∧
    bucketRow 3 (exFactor.row 0) = [some 1, some 2, some 3] ∧
    (calculate_factor_returns 3 exFactor exReturns).val 1 1 = some 0 ∧
    bucketRow 3 (exFactor.row 1) = [none, none, none] ∧
    specBucketMean 1 (bucketRow 3 (exFactor.row 1)) (exReturns.row 1) = none := by
  have hb0 : bucketRow 3 (exFactor.row 0) = [some 1, some 2, some 3] := by decide
  have hb1 : bucketRow 3 (exFactor.row 1) = [none, none, none] := by decide
  refine ⟨?_, ?_, hb0, ?_, hb1, ?_⟩
  · simp only [calculate_factor_returns]
    rw [if_pos (by decide : (0:ℤ) ∈ exFactor.dates ∧ (0:ℤ) ∈ exReturns.dates)]
    rw [hb0]
    rw [show maskedRow 1 [some 1, some 2, some 3] (exReturns.row 0)
        = [some 3, some 0, some 0] from by decide]
    simp [meanOpt, meanQ]
  · rw [hb0]
    unfold specBucketMean
    rw [show List.zipWith (fun b r => if b = some 1 then r else none)
        [some 1, some 2, some 3] (exReturns.row 0) = [some 3, none, none] from by decide]
    simp [meanOpt, meanQ]
  · simp only [calculate_factor_returns]
    rw [if_pos (by decide : (1:ℤ) ∈ exFactor.dates ∧ (1:ℤ) ∈ exReturns.dates)]
    rw [hb1]
    rw [show maskedRow 1 [none, none, none] (exReturns.row 1)
        = [some 0, some 0, some 0] from by decide]
    simp [meanOpt, meanQ]
  · rw [hb1]
    unfold specBucketMean
    rw [show List.zipWith (fun b r => if b = some 1 then r else none)
        ([none, none, none] : List (Option ℕ)) (exReturns.row 1) = [none, none, none]
      from by decide]
    simp [meanOpt]

lemma gval_eval (k : ℕ) (F R : Panel) (q : ℕ) (t : ℤ) (L : List (Option ℚ)) (v : ℚ)
    (ht : t ∈ F.dates ∧ t ∈ R.dates)
    (hm : maskedRow q (bucketRow k (F.row t)) (R.row t) = L)
    (he : meanOpt L = some v) :
    (calculate_factor_returns k F R).val q t = some v := by
  simp only [calculate_factor_returns]
  rw [if_pos ht, hm, he]

lemma lsval_eval {k : ℕ} (hk : 1 ≤ k) {F R : Panel} {t : ℤ} {a b : ℚ}
    (ha : (calculate_factor_returns k F R).val k t = some a)
    (hb : (calculate_factor_returns k F R).val 1 t = some b) :
    (calculate_long_short_returns k F R).val t = some (a - b) := by
  rw [long_short_eq_branch hk]
  simp [ha, hb]

lemma lsdates_eval {k : ℕ} (hk : 1 ≤ k) (F R : Panel) :
    (calculate_long_short_returns k F R).dates = mergeDates F.dates R.dates := by
  rw [long_short_eq_branch hk]
  rfl

/-- C3: the claim says a factor whose values are identical across all
instruments on every date is excluded from the results.  In the code such
a factor's long-short series is all zero (every date is skipped, masks
are all False, and the masked row mean is 0, not NaN), so the
empty-or-all-missing exclusion test is false: the factor is evaluated,
and its Sharpe ratio (exactly 0 by the zero-variance guard) joins the
list whose np.mean becomes average_sharpe alongside the other factors. -/
theorem c3_constant_factor_not_excluded :
    lsEmptyOrAllMissing (calculate_long_short_returns 3 exConstFactor exReturns) = false ∧
    (calculate_long_short_returns 3 exConstFactor exReturns).val 0 = some 0 ∧
    evaluatedFactorNames 3 [("constant", exConstFactor), ("spread", exFactor)] exReturns
      = ["constant", "spread"] ∧
    sharpeListOf 3 [("constant", exConstFactor), ("spread", exFactor)] exReturns
      = [some ⟨0, 1⟩, some ⟨252, 504⟩] := by
  have hc30 : (calculate_factor_returns 3 exConstFactor exReturns).val 3 0 = some 0 :=
    gval_eval 3 exConstFactor exReturns 3 0 [some 0, some 0, some 0] 0
      (by decide) (by decide) (by simp [meanOpt, meanQ])
  have hc10 : (calculate_factor_returns 3 exConstFactor exReturns).val 1 0 = some 0 :=
    gval_eval 3 exConstFactor exReturns 1 0 [some 0, some 0, some 0] 0
      (by decide) (by decide) (by simp [meanOpt, meanQ])
  have hc31 : (calculate_factor_returns 3 exConstFactor exReturns).val 3 1 = some 0 :=
    gval_eval 3 exConstFactor exReturns 3 1 [some 0, some 0, some 0] 0
      (by decide) (by decide) (by simp [meanOpt, meanQ])
  have hc11 : (calculate_factor_returns 3 exConstFactor exReturns).val 1 1 = some 0 :=
    gval_eval 3 exConstFactor exReturns 1 1 [some 0, some 0, some 0] 0
      (by decide) (by decide) (by simp [meanOpt, meanQ])
  have hs30 : (calculate_factor_returns 3 exFactor exReturns).val 3 0 = some 3 :=
    gval_eval 3 exFactor exReturns 3 0 [some 0, some 0, some 9] 3
      (by decide) (by decide) (by simp [meanOpt, meanQ]; norm_num)
  have hs10 : (calculate_factor_returns 3 exFactor exReturns).val 1 0 = some 1 :=
    gval_eval 3 exFactor exReturns 1 0 [some 3, some 0, some 0] 1
      (by decide) (by decide) (by simp [meanOpt, meanQ])
  have hs31 : (calculate_factor_returns 3 exFactor exReturns).val 3 1 = some 0 :=
    gval_eval 3 exFactor exReturns 3 1 [some 0, some 0, some 0] 0
      (by decide) (by decide) (by simp [meanOpt, meanQ])
  have hs11 : (calculate_factor_returns 3 exFactor exReturns).val 1 1 = some 0 :=
    gval_eval 3 exFactor exReturns 1 1 [some 0, some 0, some 0] 0
      (by decide) (by decide) (by simp [meanOpt, meanQ])
  have hlsc0 : (calculate_long_short_returns 3 exConstFactor exReturns).val 0 = some 0 := by
    have h := lsval_eval (by decide) hc30 hc10
    simpa using h
  have hlsc1 : (calculate_long_short_returns 3 exConstFactor exReturns).val 1 = some 0 := by
    have h := lsval_eval (by decide) hc31 hc11
    simpa using h
  have hlss0 : (calculate_long_short_returns 3 exFactor exReturns).val 0 = some 2 := by
    have h := lsval_eval (by decide) hs30 hs10
    rw [show (3:ℚ) - 1 = 2 from by norm_num] at h
    exact h
  have hlss1 : (calculate_long_short_returns 3 exFactor exReturns).val 1 = some 0 := by
    have h := lsval_eval (by decide) hs31 hs11
    simpa using h
  have hdc : (calculate_long_short_returns 3 exConstFactor exReturns).dates = [0, 1] := by
    rw [lsdates_eval (by decide)]
    decide
  have hds : (calculate_long_short_returns 3 exFactor exReturns).dates = [0, 1] := by
    rw [lsdates_eval (by decide)]
    decide
  have hfc : lsEmptyOrAllMissing (calculate_long_short_returns 3 exConstFactor exReturns)
      = false := by
    unfold lsEmptyOrAllMissing
    rw [hdc]
    simp [hlsc0, hlsc1]
  have hfsp : lsEmptyOrAllMissing (calculate_long_short_returns 3 exFactor exReturns)
      = false := by
    unfold lsEmptyOrAllMissing
    rw [hds]
    simp [hlss0, hlss1]
  have hsvc : seriesVals (calculate_long_short_returns 3 exConstFactor exReturns)
      = [some 0, some 0] := by
    unfold seriesVals
    rw [hdc]
    simp [hlsc0, hlsc1]
  have hsvs : seriesVals (calculate_long_short_returns 3 exFactor exReturns)
      = [some 2, some 0] := by
    unfold seriesVals
    rw [hds]
    simp [hlss0, hlss1]
  have hshc : calculate_sharpe_ratio [some (0:ℚ), some 0] 252 = some ⟨0, 1⟩ := by
    simp [calculate_sharpe_ratio, sampleVar, meanQ]
  have hshs : calculate_sharpe_ratio [some (2:ℚ), some 0] 252 = some ⟨252, 504⟩ := by
    have hv : sampleVar [(2:ℚ), 0] = 2 := by
      simp [sampleVar, meanQ]
      norm_num
    have hmn : meanQ [(2:ℚ), 0] = 1 := by
      simp [meanQ]
    simp only [calculate_sharpe_ratio, List.filterMap_cons, id_eq, List.filterMap_nil]
    rw [if_neg (by simp)]
    rw [if_neg (by rw [hv]; norm_num)]
    rw [hv, hmn]
    norm_num
  refine ⟨hfc, hlsc0, ?_, ?_⟩
  · simp [evaluatedFactorNames, List.filter_cons, hfc, hfsp]
  · simp [sharpeListOf, List.filter_cons, hfc, hfsp, hsvc, hsvs, hshc, hshs]

/-- C8 counterexample: an input dictionary containing every required key
except open passes construction and the whole factor computation without
any failure, so the system does not fail fast with a configuration error
for every mismatched or absent required key. -/
theorem c8_missing_open_never_fails :
    exDictNoOpen.lookup "open" = none ∧
    (initBacktest exDictNoOpen).isOk = true ∧
    (calculate_factors exDictNoOpen).isOk = true :=
  ⟨rfl, rfl, rfl⟩

lemma exSpread_g30 : (calculate_factor_returns 3 exFactor exReturns).val 3 0 = some 3 :=
  gval_eval 3 exFactor exReturns 3 0 [some 0, some 0, some 9] 3
    (by decide) (by decide) (by simp [meanOpt, meanQ]; norm_num)

lemma exSpread_g10 : (calculate_factor_returns 3 exFactor exReturns).val 1 0 = some 1 :=
  gval_eval 3 exFactor exReturns 1 0 [some 3, some 0, some 0] 1
    (by decide) (by decide) (by simp [meanOpt, meanQ])

lemma exSpread_g3off : (calculate_factor_returns 3 exFactor exReturns).val 3 5 = none := by
  simp only [calculate_factor_returns]
  rw [if_neg (by decide)]

/-- Witness for C2 at k = 3 on the concrete example panels. -/
theorem c2_witness :
    1 ≤ 3 ∧
    (calculate_long_short_returns 3 exFactor exReturns).val 0 = some (3 - 1) ∧
    (calculate_long_short_returns 3 exFactor exReturns).val 5 = none :=
  ⟨by decide,
   (c2_long_short_composition 3 (by decide) exFactor exReturns).1 0 3 1
     exSpread_g30 exSpread_g10,
   (c2_long_short_composition 3 (by decide) exFactor exReturns).2.1 5 exSpread_g3off⟩

/-- Witness for C4 at the skipped date 1 of the example factor panel. -/
theorem c4_witness :
    ((1:ℤ) ∈ exFactor.dates ∧ distinctCount (exFactor.row 1) < 3) ∧
    (bucketRow 3 (exFactor.row 1)).getD 0 none = none ∧
    (1:ℤ) ∈ skippedDates 3 exFactor ∧
    ((bucketRow 3 (exFactor.row 0)).getD 0 none).isSome = true :=
  ⟨⟨by decide, by decide⟩,
   (c4_insufficient_distinct_skip 3 exFactor 1 (by decide) (by decide)).1 0,
   (c4_insufficient_distinct_skip 3 exFactor 1 (by decide) (by decide)).2.1,
   (c4_insufficient_distinct_skip 3 exFactor 1 (by decide) (by decide)).2.2 0
     (by decide) (by decide) 0 (by decide) (by decide)⟩

/-- Witness for C5 on the bucketable date 0 of the example factor panel. -/
theorem c5_witness :
    (1 ≤ 3 ∧ 3 ≤ distinctCount (exFactor.row 0)) ∧
    bucketSize 3 (exFactor.row 0) 1 ≤ bucketSize 3 (exFactor.row 0) 2 + 1 ∧
    (1:ℕ) ≤ 3 :=
  ⟨⟨by decide, by decide⟩,
   (c5_bucketer_partition 3 (exFactor.row 0) (by decide) (by decide)).2.2.2.1 1 2
     (by decide) (by decide) (by decide) (by decide),
   (c5_bucketer_partition 3 (exFactor.row 0) (by decide) (by decide)).2.2.2.2 0 2 1 3 1 3
     (by decide) (by decide) (Or.inl (by decide)) (by decide) (by decide)⟩

/-- Witness for C6 on the example panels, including a single-pair date
whose IC is missing. -/
theorem c6_witness :
    ((0:ℤ) ∈ exFactor.dates ∧ (0:ℤ) ∈ exReturns.dates) ∧
    (calculate_factor_ic exFactor exReturns).val 0
      = spearman (validPairs (exFactor.row 0) (exReturns.row 0)) ∧
    (validPairs (exIcF.row 0) (exIcR.row 0)).length < 2 ∧
    (calculate_factor_ic exIcF exIcR).val 0 = none :=
  ⟨⟨by decide, by decide⟩,
   (c6_ic_valid_pairs exFactor exReturns 0 (by decide) (by decide)).1,
   by decide,
   (c6_ic_valid_pairs exIcF exIcR 0 (by decide) (by decide)).2 (by decide)⟩

/-- Witness for C7 on a two-point series and a constant-zero series. -/
theorem c7_witness :
    2 ≤ (([some (0:ℚ), some 1, none]).filterMap id).length ∧
    calculate_sharpe_ratio [some (0:ℚ), some 1, none] 252
      = some ⟨meanQ (([some (0:ℚ), some 1, none]).filterMap id) * 252,
              sampleVar (([some (0:ℚ), some 1, none]).filterMap id) * 252⟩ ∧
    calculate_sharpe_ratio (List.replicate 3 (some (0:ℚ))) 252 = some ⟨0, 1⟩ :=
  ⟨by decide,
   (c7_sharpe_guard [some 0, some 1, none] 252 (by decide)).1
     (by rw [show sampleVar (([some (0:ℚ), some 1, none]).filterMap id) = 1/2 from by
          rw [show ([some (0:ℚ), some 1, none]).filterMap id = [(0:ℚ), 1] from by decide]
          norm_num [sampleVar, meanQ]]
         norm_num),
   (c7_sharpe_guard [some 0, some 1, none] 252 (by decide)).2.2.2 3 (by decide)⟩

/-- Witness for C8 on concrete dictionaries missing close, volume, and
open respectively. -/
theorem c8_witness :
    ([] : OhlcvDict).lookup "close" = none ∧
    initBacktest [] = Except.error "KeyError: close" ∧
    ([("close", exClose)] : OhlcvDict).lookup "volume" = none ∧
    calculate_factors [("close", exClose)] = Except.error "KeyError: volume" ∧
    (calculate_factors exDictNoOpen).isOk = true :=
  ⟨rfl, ((c8_keyerror_timing []).1 rfl).1,
   rfl, ((c8_keyerror_timing [("close", exClose)]).2.1 exClose rfl rfl).2,
   ((c8_keyerror_timing exDictNoOpen).2.2.2.2 exClose exClose exClose exClose
     rfl rfl rfl rfl).2⟩

/-- Witness for C9 at k = 3 on the example panels. -/
theorem c9_witness :
    1 ≤ 3 ∧
    (calculate_factor_returns 3 exFactor exReturns).labels = List.range' 1 3 ∧
    (calculate_factor_returns 3 exFactor exReturns).labels.length = 3 ∧
    calculate_long_short_returns 3 exFactor exReturns =
      { dates := (calculate_factor_returns 3 exFactor exReturns).dates
        val := fun t =>
          ((calculate_factor_returns 3 exFactor exReturns).val 3 t).bind
            (fun a => ((calculate_factor_returns 3 exFactor exReturns).val 1 t).map
              (fun b => a - b)) } :=
  ⟨by decide,
   (c9_full_columns_fallback_unreachable 3 (by decide) exFactor exReturns).1,
   (c9_full_columns_fallback_unreachable 3 (by decide) exFactor exReturns).2.1,
   (c9_full_columns_fallback_unreachable 3 (by decide) exFactor exReturns).2.2.2.2.2⟩

/-- Witness for C10 on the five-key dictionary whose close panel fails
the 80-percent filter on its middle date. -/
theorem c10_witness :
    exDictFull.lookup "close" = some exClose ∧
    calculate_factors exDictFull = Except.ok
      [("price_reversal", price_reversal (filterPanel exClose (validDates exClose))),
       ("volume_price_ratio", volume_price_ratio (filterPanel exClose (validDates exClose))
         (filterPanel exClose (validDates exClose))),
       ("volatility_breakout", volatility_breakout (filterPanel exClose (validDates exClose))
         (filterPanel exClose (validDates exClose)) (filterPanel exClose (validDates exClose)))] ∧
    (price_reversal (filterPanel exClose (validDates exClose))).dates = validDates exClose ∧
    initBacktest exDictFull = Except.ok (returnsOf exClose) ∧
    (returnsOf exClose).dates = exClose.dates ∧
    validDates exClose = [0, 2] ∧
    exClose.dates = [0, 1, 2] :=
  ⟨rfl, rfl,
   (c10_factor_dates_filtered exDictFull exClose rfl).1 _ rfl
     ("price_reversal", price_reversal (filterPanel exClose (validDates exClose)))
     (by simp),
   (c10_factor_dates_filtered exDictFull exClose rfl).2.2.1,
   (c10_factor_dates_filtered exDictFull exClose rfl).2.2.2,
   by
     have h0 : (4:ℚ)/5 * (exClose.n : ℚ) ≤ (nonNaCount (exClose.row 0) : ℚ) := by
       rw [show nonNaCount (exClose.row 0) = 1 from by decide, show exClose.n = 1 from rfl]
       norm_num
     have h1 : ¬ ((4:ℚ)/5 * (exClose.n : ℚ) ≤ (nonNaCount (exClose.row 1) : ℚ)) := by
       rw [show nonNaCount (exClose.row 1) = 0 from by decide, show exClose.n = 1 from rfl]
       norm_num
     have h2 : (4:ℚ)/5 * (exClose.n : ℚ) ≤ (nonNaCount (exClose.row 2) : ℚ) := by
       rw [show nonNaCount (exClose.row 2) = 1 from by decide, show exClose.n = 1 from rfl]
       norm_num
     show List.filter _ [0, 1, 2] = [0, 2]
     rw [List.filter_cons, List.filter_cons, List.filter_cons, List.filter_nil,
       decide_eq_true h0, decide_eq_false h1, decide_eq_true h2]
     simp,
   rfl⟩
